import Mathlib

/-!
# Polymorphic replies, cascading soft delete and the retention sweep

A shallow embedding of the two programs of the repository,
`cmds/delete_after_60_days/main.go` and `cmds/poly_delete/main.go`.

Both programs talk to PostgreSQL through the ORM.  The database is embedded as
an explicit state (`Gorm.DB`: three tables and their id sequences) and every
ORM call the programs make is a pure function on that state, returning the new
state together with the Go `error` value (`none` is `nil`).

Conventions of the embedding:

* a timestamp is an instant, counted in seconds since the Unix epoch; the
  clock of the process has a zone (`Gorm.Location`), a parameter of the
  programs, and `AddDate(0, 0, n)` moves the wall-clock reading in that zone by
  `n` calendar days and reads it back as `time.Date` does, zone transitions
  and 64-bit wrap-around included;
* `uint` keys are natural numbers, `int` is an integer with the arithmetic of
  the source wrapped to 64 bits;
* a nullable `deleted_at` is an `Option`; `none` is SQL `NULL`, and a
  comparison with `NULL` selects no row;
* a table is the list of its rows in insertion order;
* connection failures are outside the model: a statement fails only for the
  reasons written in the definitions.
-/

namespace Gorm

/-- An instant: seconds since the Unix epoch. -/
abbrev Time := Int

/-- The zero value of `time.Time` (January 1, year 1, 00:00 UTC). -/
def zeroTime : Time := -62135596800

/-- Seconds of a calendar day (`secondsPerDay` of package `time`). -/
def secondsPerDay : Int := 86400

/-- Wrap an integer to the range of a 64-bit signed `int`. -/
def wrapInt64 (x : Int) : Int := (x + 2 ^ 63) % 2 ^ 64 - 2 ^ 63

/-- Unary minus on a Go `int`. -/
def negInt (x : Int) : Int := wrapInt64 (-x)

/-- What `(*Location).lookup(sec)` returns about the zone in effect at the
instant `sec`: its offset in seconds east of UTC and the instants
`start <= sec < stop` between which it is in effect. -/
structure Zone where
  offset : Int
  start : Int
  stop : Int
deriving DecidableEq, Repr

/-- A `*time.Location`, given by its `lookup`. -/
structure Location where
  lookup : Int → Zone

/-- The location `time.UTC`. -/
def Location.UTC : Location :=
  { lookup := fun _ => { offset := 0, start := -2 ^ 63, stop := 2 ^ 63 - 1 } }

/-- The location `America/New_York` as far as the instants from 7 November 2010
to 11 March 2012 go: standard time (UTC-5) until 13 March 2011 07:00 UTC,
daylight time (UTC-4) until 6 November 2011 06:00 UTC, standard time after. -/
def Location.newYork2011 : Location :=
  { lookup := fun sec =>
      if sec < 1299999600 then { offset := -18000, start := 1289109600, stop := 1299999600 }
      else if sec < 1320559200 then
        { offset := -14400, start := 1299999600, stop := 1320559200 }
      else { offset := -18000, start := 1320559200, stop := 1331449200 } }

/-- Every zone of the location is at most a day away from UTC. -/
def Location.Bounded (loc : Location) : Prop :=
  ∀ sec, -86400 ≤ (loc.lookup sec).offset ∧ (loc.lookup sec).offset ≤ 86400

/-- The location has one zone offset at all instants, as `time.UTC` or a
`time.FixedZone` has. -/
def Location.Constant (loc : Location) : Prop :=
  ∀ sec1 sec2, (loc.lookup sec1).offset = (loc.lookup sec2).offset

/-- The wall-clock reading of `t` in `loc`, in seconds: what `t.Date()` and
`t.Clock()` are read from. -/
def wallClock (loc : Location) (t : Time) : Int := wrapInt64 (t + (loc.lookup t).offset)

/-- Function `time.Date(year, month, day, hour, min, sec, nsec, loc)`, from the
point where the calendar fields have been summed to `unix`, the wall-clock
reading in seconds taken as if UTC: the offset of the zone found at `unix` is
subtracted, or, when the instant so obtained lies outside that zone, the offset
of the zone found at that instant. -/
def Date (loc : Location) (unix : Int) : Time :=
  let z := loc.lookup unix
  if z.offset ≠ 0 then
    let utc := wrapInt64 (unix - z.offset)
    if utc < z.start ∨ utc ≥ z.stop then wrapInt64 (unix - (loc.lookup utc).offset)
    else wrapInt64 (unix - z.offset)
  else unix

/-- The method `t.AddDate(0, 0, days)`, the only form the programs call, for a
`t` in location `loc`: `Date(year, month, day + days, hour, min, sec, nsec, loc)`
on the wall-clock fields of `t`.  The day count enters the seconds through a
64-bit multiplication by `secondsPerDay`. -/
def AddDate (loc : Location) (t : Time) (days : Int) : Time :=
  Date loc (wrapInt64 (wallClock loc t + days * secondsPerDay))

/-- The embedded struct `gorm.Model`. -/
structure Model where
  ID : Nat
  CreatedAt : Time
  UpdatedAt : Time
  DeletedAt : Option Time
deriving DecidableEq, Repr

/-- Row of table `users`. -/
structure User extends Model where
  Name : String
deriving DecidableEq, Repr

/-- Row of table `posts`; the association fields hold no column. -/
structure Post extends Model where
  Title : String
  Content : String
  UserID : Nat
deriving DecidableEq, Repr

/-- Row of table `replies`; `Parent` is tagged `gorm:"-"` and `User`, `Replies`
are associations, so none of them is a column. -/
structure Reply extends Model where
  Content : String
  UserID : Nat
  ParentID : Nat
  ParentType : String
deriving DecidableEq, Repr

/-- Go `error` values the programs can see. -/
inductive Error where
  | ErrRecordNotFound
  | ErrMissingWhereClause
  | ErrDuplicatedKey
  | Errorf (msg : String)
deriving DecidableEq, Repr

/-- Database state: the three migrated tables and the last value handed out by
each `id` sequence. -/
structure DB where
  users : List User
  posts : List Post
  replies : List Reply
  usersSeq : Nat
  postsSeq : Nat
  repliesSeq : Nat
deriving DecidableEq, Repr

/-- State after `ResetDB` and `AutoMigrate`. -/
def DB.empty : DB :=
  { users := [], posts := [], replies := [], usersSeq := 0, postsSeq := 0, repliesSeq := 0 }

/-- Soft-delete scope every query on a model with `DeletedAt` carries:
`deleted_at IS NULL`. -/
def live (m : Model) : Bool := m.DeletedAt.isNone

/-- SQL `deleted_at > ?`: unknown, hence not selected, on `NULL`. -/
def deletedAtGt (m : Model) (cutoff : Time) : Bool :=
  match m.DeletedAt with
  | none => false
  | some t => decide (cutoff < t)

/-- SQL `deleted_at < ?`: unknown, hence not selected, on `NULL`. -/
def deletedAtLt (m : Model) (cutoff : Time) : Bool :=
  match m.DeletedAt with
  | none => false
  | some t => decide (t < cutoff)

/-- Statement `db.Where(cond).Delete(&Reply{})`: because `Reply` has a
`DeletedAt` column this is
`UPDATE replies SET deleted_at = now WHERE cond AND deleted_at IS NULL`. -/
def softDeleteReplies (cond : Reply → Bool) (now : Time) (rows : List Reply) : List Reply :=
  rows.map fun r => if cond r && live r.toModel then { r with DeletedAt := some now } else r

/-- Statement `db.Unscoped().Where(cond).Delete(&Reply{})`:
`DELETE FROM replies WHERE cond`. -/
def unscopedDeleteReplies (cond : Reply → Bool) (rows : List Reply) : List Reply :=
  rows.filter fun r => !cond r

/-- Statement `tx.First(&dest, id)` on replies:
`SELECT * FROM replies WHERE id = ? AND deleted_at IS NULL ORDER BY id LIMIT 1`. -/
def firstReply (db : DB) (id : Nat) : Except Error Reply :=
  match db.replies.find? fun r => r.ID == id && live r.toModel with
  | some r => .ok r
  | none => .error .ErrRecordNotFound

/-- Statement `db.Unscoped().Where(cond).Find(&replies)`. -/
def unscopedFindReplies (cond : Reply → Bool) (db : DB) : List Reply :=
  db.replies.filter cond

/-- Statement `db.Model(&Reply{}).Count(&count)`:
`SELECT count(*) FROM replies WHERE deleted_at IS NULL`. -/
def countReplies (db : DB) : Nat :=
  (db.replies.filter fun r => live r.toModel).length

/-- Timestamps written by an insert: a zero `CreatedAt`/`UpdatedAt` is filled
with the current time. -/
def stamp (now : Time) (t : Time) : Time := if t = zeroTime then now else t

/-- Insert of a reply row.  A zero `ID` takes the next value of the sequence,
any other `ID` is inserted as given; the primary key rejects a duplicate.  The
second component is the struct after the call: the ORM writes the key and the
timestamps back through the pointer. -/
def insertReply (db : DB) (now : Time) (r : Reply) : DB × Reply × Option Error :=
  let id := if r.ID = 0 then db.repliesSeq + 1 else r.ID
  let seq := if r.ID = 0 then db.repliesSeq + 1 else db.repliesSeq
  let row : Reply :=
    { r with ID := id, CreatedAt := stamp now r.CreatedAt, UpdatedAt := stamp now r.UpdatedAt }
  if db.replies.any fun x => x.ID == id then
    ({ db with repliesSeq := seq }, r, some .ErrDuplicatedKey)
  else
    ({ db with replies := db.replies ++ [row], repliesSeq := seq }, row, none)

/-- Insert of a post row, as `insertReply`. -/
def insertPost (db : DB) (now : Time) (p : Post) : DB × Post × Option Error :=
  let id := if p.ID = 0 then db.postsSeq + 1 else p.ID
  let seq := if p.ID = 0 then db.postsSeq + 1 else db.postsSeq
  let row : Post :=
    { p with ID := id, CreatedAt := stamp now p.CreatedAt, UpdatedAt := stamp now p.UpdatedAt }
  if db.posts.any fun x => x.ID == id then
    ({ db with postsSeq := seq }, p, some .ErrDuplicatedKey)
  else
    ({ db with posts := db.posts ++ [row], postsSeq := seq }, row, none)

/-- Insert of a user row, as `insertReply`. -/
def insertUser (db : DB) (now : Time) (u : User) : DB × User × Option Error :=
  let id := if u.ID = 0 then db.usersSeq + 1 else u.ID
  let seq := if u.ID = 0 then db.usersSeq + 1 else db.usersSeq
  let row : User :=
    { u with ID := id, CreatedAt := stamp now u.CreatedAt, UpdatedAt := stamp now u.UpdatedAt }
  if db.users.any fun x => x.ID == id then
    ({ db with usersSeq := seq }, u, some .ErrDuplicatedKey)
  else
    ({ db with users := db.users ++ [row], usersSeq := seq }, row, none)

/-- The update half of `db.Delete(post)`: `Post` has a `DeletedAt` column, so the
statement is `UPDATE posts SET deleted_at = now WHERE id = ? AND deleted_at IS NULL`.
With a zero primary key the statement has no condition and is refused. -/
def softDeletePost (db : DB) (now : Time) (p : Post) : DB × Option Error :=
  if p.ID = 0 then (db, some .ErrMissingWhereClause)
  else
    ({ db with posts := db.posts.map fun x =>
        if x.ID == p.ID && live x.toModel then { x with DeletedAt := some now } else x }, none)

/-- Statement `db.Unscoped().Model(reply).Update("deleted_at", t)`:
`UPDATE replies SET deleted_at = t, updated_at = now WHERE id = ?`. -/
def updateDeletedAt (db : DB) (now : Time) (id : Nat) (t : Time) : DB :=
  { db with replies := db.replies.map fun r =>
      if r.ID == id then { r with DeletedAt := some t, UpdatedAt := now } else r }

/-- The primary key of table `replies`: no two rows share an `id`. -/
def PrimaryKey (rows : List Reply) : Prop := (rows.map fun r => r.ID).Nodup

instance (rows : List Reply) : Decidable (PrimaryKey rows) := by
  unfold PrimaryKey; infer_instance

/-- A stored reply row with the given key, parent reference and `deleted_at`,
used to write down concrete tables. -/
def replyRow (id : Nat) (parentType : String) (parentID : Nat) (deletedAt : Option Time) : Reply :=
  { ID := id, CreatedAt := 1700000000, UpdatedAt := 1700000000, DeletedAt := deletedAt,
    Content := "Reply", UserID := 1, ParentID := parentID, ParentType := parentType }

/-- A reply struct as a caller hands it to `db.Create`: zero key and timestamps. -/
def newReply (parentType : String) (parentID : Nat) : Reply :=
  { ID := 0, CreatedAt := zeroTime, UpdatedAt := zeroTime, DeletedAt := none,
    Content := "Reply", UserID := 1, ParentID := parentID, ParentType := parentType }

/-- A database holding the given replies and nothing else. -/
def withReplies (rows : List Reply) : DB :=
  { DB.empty with replies := rows, repliesSeq := rows.length }

end Gorm

/-! ## Program `cmds/delete_after_60_days` -/

namespace DeleteAfter60Days

open Gorm

/-- Function `HardDeleteRepliesAfterNDays(db, days)` run when `time.Now()` is the
instant `now` on a clock in location `loc`:
`DELETE FROM replies WHERE deleted_at > now.AddDate(0, 0, -days)`, returning the
statement's error. -/
def HardDeleteRepliesAfterNDays (loc : Location) (db : DB) (now : Time) (days : Int) :
    DB × Option Error :=
  let cutoff := AddDate loc now (negInt days)
  ({ db with replies := unscopedDeleteReplies (fun r => deletedAtGt r.toModel cutoff) db.replies },
    none)

/-- Hook `(p *Post) AfterDelete(tx)`, run when the clock reads `now`. -/
def Post.AfterDelete (p : Post) (tx : DB) (now : Time) : DB × Option Error :=
  ({ tx with replies :=
      softDeleteReplies (fun r => r.ParentType == "Post" && r.ParentID == p.ID) now tx.replies },
    none)

/-- Hook `(r *Reply) BeforeCreate(tx)`.  The first component is the returned
error, the second lists the primary keys the hook looked up with `tx.First`. -/
def Reply.BeforeCreate (r : Reply) (tx : DB) : Option Error × List Nat :=
  if r.ParentType = "Reply" then
    match firstReply tx r.ParentID with
    | .error err => (some err, [r.ParentID])
    | .ok parentReply =>
      if parentReply.ParentType = "Reply" then
        (some (.Errorf "Reply can't have a parent reply"), [r.ParentID])
      else
        (none, [r.ParentID])
  else
    (none, [])

/-- Call `db.Create(reply)`: the `BeforeCreate` hook runs first and its error
aborts the statement; otherwise the row is inserted. -/
def CreateReply (db : DB) (now : Time) (r : Reply) : DB × Reply × Option Error :=
  match (Reply.BeforeCreate r db).1 with
  | some err => (db, r, some err)
  | none => insertReply db now r

/-- Call `db.Delete(post)`: the soft delete of the post at time `now`, then, when
it raised no error, the `AfterDelete` hook at time `hookNow`. -/
def DeletePost (db : DB) (now hookNow : Time) (p : Post) : DB × Option Error :=
  match softDeletePost db now p with
  | (db1, some err) => (db1, some err)
  | (db1, none) => Post.AfterDelete p db1 hookNow

/-- The loop of `main` that creates `Reply #0` .. `Reply #9` under the post;
`clock k` is the reading of the `k`-th call of `time.Now`. -/
def createReplies (clock : Nat → Time) (user : User) (post : Post) :
    List Nat → DB → Option DB
  | [], db => some db
  | i :: rest, db =>
    let reply1 : Reply :=
      { ID := 0, CreatedAt := zeroTime, UpdatedAt := zeroTime, DeletedAt := none,
        Content := "Reply #" ++ toString i, UserID := user.ID,
        ParentID := post.ID, ParentType := "Post" }
    match CreateReply db (clock (2 + i)) reply1 with
    | (db1, _, none) => createReplies clock user post rest db1
    | (_, _, some _) => none

/-- The loop of `main` that backdates the first five rows found. -/
def backdate (clock : Nat → Time) (dayMinus61 : Time) : List (Nat × Reply) → DB → DB
  | [], db => db
  | (i, reply) :: rest, db =>
    if i < 5 then backdate clock dayMinus61 rest (updateDeletedAt db (clock (15 + i)) reply.ID dayMinus61)
    else backdate clock dayMinus61 rest db

/-- Function `main` from after `AutoMigrate` up to the call of the sweep (lines
117 to 168), on a clock in location `loc`: the database the sweep receives,
`none` when a `PanicIfError` fires. -/
def mainBeforeSweep (loc : Location) (clock : Nat → Time) : Option DB :=
  match insertUser DB.empty (clock 0)
      { ID := 0, CreatedAt := zeroTime, UpdatedAt := zeroTime, DeletedAt := none, Name := "User A" } with
  | (_, _, some _) => none
  | (db1, user, none) =>
  match insertPost db1 (clock 1)
      { ID := 0, CreatedAt := zeroTime, UpdatedAt := zeroTime, DeletedAt := none,
        Title := "Post Title", Content := "Post Content", UserID := user.ID } with
  | (_, _, some _) => none
  | (db2, post, none) =>
  match createReplies clock user post (List.range 10) db2 with
  | none => none
  | some db3 =>
  let dayMinus61 := AddDate loc (clock 12) (-61)
  let ofPost : Reply → Bool := fun r => r.ParentID == post.ID && r.ParentType == "Post"
  let db4 := { db3 with replies := softDeleteReplies ofPost (clock 14) db3.replies }
  let replies := unscopedFindReplies ofPost db4
  some (backdate clock dayMinus61 replies.enum db4)

/-- Function `main` after `ResetDB` and `AutoMigrate`: the final database, `none`
when a `PanicIfError` fires.  The error of the sweep is dropped, as in the source. -/
def main (loc : Location) (clock : Nat → Time) : Option DB :=
  (mainBeforeSweep loc clock).map fun db => (HardDeleteRepliesAfterNDays loc db (clock 20) 60).1

/-- Follows the spec's words, not the source: `HardDeleteOlderThan(days)` removes
the soft-deleted Replies with `deleted_at < now - days` and keeps the others. -/
def specHardDeleteOlderThan (db : DB) (now : Time) (days : Int) : DB :=
  { db with replies :=
      db.replies.filter fun r => !deletedAtLt r.toModel (now - days * secondsPerDay) }

/-- A clock for running `main`: one second passes between two readings. -/
def tickingClock : Nat → Time := fun k => 1700000000 + k

/-- One creation call of a caller of this program. -/
inductive Op where
  | createUser (now : Time) (u : User)
  | createPost (now : Time) (p : Post)
  | createReply (now : Time) (r : Reply)
deriving DecidableEq, Repr

/-- Run a sequence of creations, each of which must succeed (return `nil`):
`none` as soon as one fails. -/
def exec : DB → List Op → Option DB
  | db, [] => some db
  | db, .createUser now u :: rest =>
    match insertUser db now u with
    | (db1, _, none) => exec db1 rest
    | (_, _, some _) => none
  | db, .createPost now p :: rest =>
    match insertPost db now p with
    | (db1, _, none) => exec db1 rest
    | (_, _, some _) => none
  | db, .createReply now r :: rest =>
    match CreateReply db now r with
    | (db1, _, none) => exec db1 rest
    | (_, _, some _) => none

/-- The nesting rule the hook enforces on a database: `replies` has a primary
key, and every Reply with `ParentType = "Reply"` has a stored parent Reply whose
own `ParentType` is not `"Reply"`. -/
def NoReplyChain (db : DB) : Prop :=
  PrimaryKey db.replies ∧
    ∀ r ∈ db.replies, r.ParentType = "Reply" →
      ∃ p ∈ db.replies, p.ID = r.ParentID ∧ p.ParentType ≠ "Reply"

/-- A sequence of successful creations: a user, a post, a reply whose
`ParentType` was left empty, and a reply to that reply. -/
def untypedParentScript : List Op :=
  [ .createUser 1700000000
      { ID := 0, CreatedAt := zeroTime, UpdatedAt := zeroTime, DeletedAt := none, Name := "User A" },
    .createPost 1700000001
      { ID := 0, CreatedAt := zeroTime, UpdatedAt := zeroTime, DeletedAt := none,
        Title := "Post Title", Content := "Post Content", UserID := 1 },
    .createReply 1700000002 (newReply "" 1),
    .createReply 1700000003 (newReply "Reply" 1) ]

/-- The database `untypedParentScript` builds. -/
def untypedParentState : DB :=
  { users := [{ ID := 1, CreatedAt := 1700000000, UpdatedAt := 1700000000, DeletedAt := none,
                Name := "User A" }],
    posts := [{ ID := 1, CreatedAt := 1700000001, UpdatedAt := 1700000001, DeletedAt := none,
                Title := "Post Title", Content := "Post Content", UserID := 1 }],
    replies :=
      [{ ID := 1, CreatedAt := 1700000002, UpdatedAt := 1700000002, DeletedAt := none,
         Content := "Reply", UserID := 1, ParentID := 1, ParentType := "" },
       { ID := 2, CreatedAt := 1700000003, UpdatedAt := 1700000003, DeletedAt := none,
         Content := "Reply", UserID := 1, ParentID := 1, ParentType := "Reply" }],
    usersSeq := 1, postsSeq := 1, repliesSeq := 2 }

/-- A sequence of successful creations: a user, a post, a reply to the post and
a reply to that reply. -/
def nestedScript : List Op :=
  [ .createUser 1700000000
      { ID := 0, CreatedAt := zeroTime, UpdatedAt := zeroTime, DeletedAt := none, Name := "User A" },
    .createPost 1700000001
      { ID := 0, CreatedAt := zeroTime, UpdatedAt := zeroTime, DeletedAt := none,
        Title := "Post Title", Content := "Post Content", UserID := 1 },
    .createReply 1700000002 (newReply "Post" 1),
    .createReply 1700000003 (newReply "Reply" 1) ]

/-- The database `nestedScript` builds. -/
def nestedState : DB :=
  { users := [{ ID := 1, CreatedAt := 1700000000, UpdatedAt := 1700000000, DeletedAt := none,
                Name := "User A" }],
    posts := [{ ID := 1, CreatedAt := 1700000001, UpdatedAt := 1700000001, DeletedAt := none,
                Title := "Post Title", Content := "Post Content", UserID := 1 }],
    replies :=
      [{ ID := 1, CreatedAt := 1700000002, UpdatedAt := 1700000002, DeletedAt := none,
         Content := "Reply", UserID := 1, ParentID := 1, ParentType := "Post" },
       { ID := 2, CreatedAt := 1700000003, UpdatedAt := 1700000003, DeletedAt := none,
         Content := "Reply", UserID := 1, ParentID := 1, ParentType := "Reply" }],
    usersSeq := 1, postsSeq := 1, repliesSeq := 2 }

/-- A replies table: reply 1 under post 1, reply 2 under post 2, reply 3 under
reply 1, and reply 4 under post 1 but soft-deleted earlier. -/
def sampleReplies : List Reply :=
  [ replyRow 1 "Post" 1 none, replyRow 2 "Post" 2 none, replyRow 3 "Reply" 1 none,
    replyRow 4 "Post" 1 (some 1700000500) ]

/-- A stored post with key 1. -/
def samplePost : Post :=
  { ID := 1, CreatedAt := 1700000000, UpdatedAt := 1700000000, DeletedAt := none,
    Title := "Post Title", Content := "Post Content", UserID := 1 }

/-- A replies table for the sweep: a live reply, one soft-deleted 100 days before
time `1700000000`, one soft-deleted an hour before it, and one whose `deleted_at`
was set two days after it. -/
def sweepReplies : List Reply :=
  [ replyRow 1 "Post" 1 none, replyRow 2 "Post" 1 (some 1691360000),
    replyRow 3 "Post" 1 (some 1699996400), replyRow 4 "Post" 1 (some 1700172800) ]

/-- A replies table with one reply, soft-deleted on 13 March 2011 at 06:16:40
UTC (01:16:40 in New York). -/
def marchReplies : List Reply :=
  [{ ID := 1, CreatedAt := 1299990000, UpdatedAt := 1299990000, DeletedAt := some 1299997000,
     Content := "Reply", UserID := 1, ParentID := 1, ParentType := "Post" }]

end DeleteAfter60Days

/-! ## Program `cmds/poly_delete` -/

namespace PolyDelete

open Gorm

/-- Call `db.Create(reply)`: this program declares no hook on `Reply`. -/
def CreateReply (db : DB) (now : Time) (r : Reply) : DB × Reply × Option Error :=
  insertReply db now r

/-- Call `db.Delete(post)`: this program declares no hook on `Post` (the
`AfterDelete` method is commented out), so only the soft delete of the post runs. -/
def DeletePost (db : DB) (now : Time) (p : Post) : DB × Option Error :=
  softDeletePost db now p

/-- Function `main` from after `AutoMigrate` up to the deletion of the post
(lines 85 to 110): the database and the `post` struct at that point, `none` when
a `PanicIfError` fires. -/
def mainBeforeDelete (clock : Nat → Time) : Option (DB × Post) :=
  match insertUser DB.empty (clock 0)
      { ID := 0, CreatedAt := zeroTime, UpdatedAt := zeroTime, DeletedAt := none, Name := "User A" } with
  | (_, _, some _) => none
  | (db1, user, none) =>
  match insertPost db1 (clock 1)
      { ID := 0, CreatedAt := zeroTime, UpdatedAt := zeroTime, DeletedAt := none,
        Title := "Post Title", Content := "Post Content", UserID := user.ID } with
  | (_, _, some _) => none
  | (db2, post, none) =>
  match CreateReply db2 (clock 2)
      { ID := 0, CreatedAt := zeroTime, UpdatedAt := zeroTime, DeletedAt := none,
        Content := "Reply 1", UserID := user.ID, ParentID := post.ID, ParentType := "Post" } with
  | (_, _, some _) => none
  | (db3, _, none) => some (db3, post)

/-- Function `main` after `ResetDB` and `AutoMigrate`: the final database and the
count it prints, `none` when a `PanicIfError` fires. -/
def main (clock : Nat → Time) : Option (DB × Nat) :=
  match mainBeforeDelete clock with
  | none => none
  | some (db3, post) =>
  match DeletePost db3 (clock 3) post with
  | (_, some _) => none
  | (db4, none) => some (db4, countReplies db4)

end PolyDelete

/-! ## Theorems: the retention sweep -/

namespace DeleteAfter60Days

open Gorm

/-- Wrapping leaves a value of the 64-bit range as it is. -/
theorem wrapInt64_of_range (x : Int) (h1 : -9223372036854775808 ≤ x)
    (h2 : x < 9223372036854775808) : wrapInt64 x = x := by
  unfold wrapInt64
  norm_num
  omega

/-- Negating an `int` other than the minimum does not wrap. -/
theorem negInt_of_range (x : Int) (h1 : -9223372036854775808 < x)
    (h2 : x ≤ 9223372036854775808) : negInt x = -x := by
  unfold negInt
  exact wrapInt64_of_range (-x) (by omega) (by omega)

/-- Away from the 64-bit limits `AddDate` moves an instant by the given number
of days of 86400 seconds, plus the difference between the zone offset at the
instant and the zone offset `time.Date` settles on. -/
theorem AddDate_of_range (loc : Location) (t : Time) (k : Int) (hloc : loc.Bounded)
    (ht1 : 0 ≤ t) (ht2 : t ≤ 4294967296) (hk1 : -100000 ≤ k) (hk2 : k ≤ 100000) :
    ∃ sec, AddDate loc t k
      = t + k * 86400 + (loc.lookup t).offset - (loc.lookup sec).offset := by
  have h0 := hloc t
  unfold Time at *
  unfold AddDate wallClock secondsPerDay
  rw [wrapInt64_of_range (t + (loc.lookup t).offset) (by omega) (by omega)]
  rw [wrapInt64_of_range (t + (loc.lookup t).offset + k * 86400) (by omega) (by omega)]
  generalize hu : t + (loc.lookup t).offset + k * 86400 = unix
  have h1 := hloc unix
  unfold Date
  simp only []
  by_cases hz : (loc.lookup unix).offset = 0
  · refine ⟨unix, ?_⟩
    simp only [hz, ne_eq, not_true_eq_false, if_false]
    omega
  · rw [if_pos hz]
    rw [wrapInt64_of_range (unix - (loc.lookup unix).offset) (by omega) (by omega)]
    split
    · have h2 := hloc (unix - (loc.lookup unix).offset)
      refine ⟨unix - (loc.lookup unix).offset, ?_⟩
      rw [wrapInt64_of_range _ (by omega) (by omega)]
      omega
    · exact ⟨unix, by omega⟩

/-- The zone of `time.UTC` is within a day of UTC. -/
theorem UTC_Bounded : Location.UTC.Bounded := by
  intro sec
  simp [Location.UTC]

/-- The location `time.UTC` has one offset. -/
theorem UTC_Constant : Location.UTC.Constant := fun _ _ => rfl

/-- A row is left by the sweep iff it was there and its `deleted_at` does not
lie after the cutoff. -/
theorem mem_HardDeleteRepliesAfterNDays (loc : Location) (db : DB) (now : Time) (days : Int)
    (r : Reply) :
    r ∈ (HardDeleteRepliesAfterNDays loc db now days).1.replies ↔
      r ∈ db.replies ∧ deletedAtGt r.toModel (AddDate loc now (negInt days)) = false := by
  simp [HardDeleteRepliesAfterNDays, unscopedDeleteReplies]

/-- A live row is never selected by `deleted_at > ?`. -/
theorem deletedAtGt_of_live (r : Reply) (cutoff : Time) (h : r.DeletedAt = none) :
    deletedAtGt r.toModel cutoff = false := by
  simp [deletedAtGt, h]

/-- A second sweep whose cutoff is not earlier than the first's removes nothing. -/
theorem sweep_twice_of_cutoffs (loc : Location) (db : DB) (now1 now2 : Time) (days : Int)
    (hcut : AddDate loc now1 (negInt days) ≤ AddDate loc now2 (negInt days)) :
    HardDeleteRepliesAfterNDays loc (HardDeleteRepliesAfterNDays loc db now1 days).1 now2 days
      = ((HardDeleteRepliesAfterNDays loc db now1 days).1, none) := by
  have hkeep : ∀ r ∈ (HardDeleteRepliesAfterNDays loc db now1 days).1.replies,
      (!deletedAtGt r.toModel (AddDate loc now2 (negInt days))) = true := by
    intro r hr
    have h1 := ((mem_HardDeleteRepliesAfterNDays loc db now1 days r).1 hr).2
    cases hd : r.DeletedAt with
    | none => simp [deletedAtGt, hd]
    | some t =>
      simp only [deletedAtGt, hd, decide_eq_false_iff_not, not_lt] at h1
      simp only [deletedAtGt, hd, Bool.not_eq_true', decide_eq_false_iff_not, not_lt]
      exact le_trans h1 hcut
  simp only [HardDeleteRepliesAfterNDays, unscopedDeleteReplies] at hkeep ⊢
  rw [List.filter_eq_self.2 hkeep]

/-- Claim C1, the code at the scenario of `main`: on a UTC clock with one second
between readings, the sweep `HardDeleteRepliesAfterNDays(db, 60)` leaves the five
Replies backdated to 61 days ago (keys 1 to 5) and removes the five soft-deleted
just now, whereas the sweep the spec words (`deleted_at < now - days`) would
leave keys 6 to 10. -/
theorem main_sweep_keeps_backdated_removes_recent :
    ((main Location.UTC tickingClock).map fun db =>
          db.replies.map fun r => (r.ID, r.Content, r.DeletedAt))
        = some [(1, "Reply #0", some 1694729612), (2, "Reply #1", some 1694729612),
                (3, "Reply #2", some 1694729612), (4, "Reply #3", some 1694729612),
                (5, "Reply #4", some 1694729612)]
      ∧ ((mainBeforeSweep Location.UTC tickingClock).map fun db =>
            (specHardDeleteOlderThan db (tickingClock 20) 60).replies.map
              fun r => (r.ID, r.Content, r.DeletedAt))
        = some [(6, "Reply #5", some 1700000014), (7, "Reply #6", some 1700000014),
                (8, "Reply #7", some 1700000014), (9, "Reply #8", some 1700000014),
                (10, "Reply #9", some 1700000014)] := by
  decide

/-- Claim C5: for every table, clock (location and reading) and `days`, the sweep
`HardDeleteRepliesAfterNDays` keeps every live Reply unchanged: the live rows
after the call are the live rows before it, in the same order; each live row of
the table is still a row; the rows left are rows of the old table; the other
tables are untouched. -/
theorem HardDeleteRepliesAfterNDays_keeps_live (loc : Location) (db : DB) (now : Time)
    (days : Int) :
    ((HardDeleteRepliesAfterNDays loc db now days).1.replies.filter fun r => live r.toModel)
        = (db.replies.filter fun r => live r.toModel)
      ∧ (∀ r ∈ db.replies, r.DeletedAt = none →
          r ∈ (HardDeleteRepliesAfterNDays loc db now days).1.replies)
      ∧ (HardDeleteRepliesAfterNDays loc db now days).1.replies.Sublist db.replies
      ∧ (HardDeleteRepliesAfterNDays loc db now days).1.posts = db.posts
      ∧ (HardDeleteRepliesAfterNDays loc db now days).1.users = db.users := by
  refine ⟨?_, ?_, ?_, rfl, rfl⟩
  · simp only [HardDeleteRepliesAfterNDays, unscopedDeleteReplies, List.filter_filter]
    apply List.filter_congr
    intro r _
    cases h : r.DeletedAt <;> simp [live, deletedAtGt, h]
  · intro r hr hlive
    exact (mem_HardDeleteRepliesAfterNDays loc db now days r).2
      ⟨hr, deletedAtGt_of_live r _ hlive⟩
  · simp only [HardDeleteRepliesAfterNDays, unscopedDeleteReplies]
    exact List.filter_sublist _

/-- Claim C5 at a concrete table: the live reply 1 of `sweepReplies` survives a
60-day sweep. -/
theorem HardDeleteRepliesAfterNDays_keeps_live_witness :
    replyRow 1 "Post" 1 none ∈
      (HardDeleteRepliesAfterNDays Location.UTC (withReplies sweepReplies) 1700000000
        60).1.replies :=
  (HardDeleteRepliesAfterNDays_keeps_live Location.UTC (withReplies sweepReplies)
    1700000000 60).2.1 (replyRow 1 "Post" 1 none) (by decide) rfl

/-- Claim C8 refuted at `days = -1`: the sweep at instant `1700000000` on a UTC
clock over `sweepReplies` returns `nil`, not an error, and removes reply 4, whose
`deleted_at` lies two days after the clock reading. -/
theorem HardDeleteRepliesAfterNDays_negative_days_runs :
    (HardDeleteRepliesAfterNDays Location.UTC (withReplies sweepReplies) 1700000000 (-1)).2
        = none
      ∧ (HardDeleteRepliesAfterNDays Location.UTC (withReplies sweepReplies) 1700000000
          (-1)).1.replies
        = [replyRow 1 "Post" 1 none, replyRow 2 "Post" 1 (some 1691360000),
           replyRow 3 "Post" 1 (some 1699996400)]
      ∧ replyRow 4 "Post" 1 (some 1700172800) ∈ (withReplies sweepReplies).replies := by
  decide

/-- Claim C8 as amended: for `-100000 ≤ days < 0`, a clock reading between 1970
and 2106 and a location whose zones are at most a day from UTC, the sweep makes
no argument check and returns `nil`; a row is left iff it was there and its
`deleted_at` is unset or not after the cutoff `now.AddDate(0, 0, -days)`, so
every live Reply is kept; the cutoff is `-days` days of 86400 seconds after the
clock reading, up to the difference of two zone offsets of the location (none on
a clock of constant offset); and when no two offsets of the location differ by
more than a day, the cutoff is not before the clock reading and every Reply
soft-deleted up to the clock reading is kept. -/
theorem HardDeleteRepliesAfterNDays_negative_days (loc : Location) (db : DB) (now : Time)
    (days : Int) (hneg : days < 0) (hdays : -100000 ≤ days)
    (hnow : 0 ≤ now ∧ now ≤ 4294967296) (hloc : loc.Bounded) :
    (HardDeleteRepliesAfterNDays loc db now days).2 = none
      ∧ (∀ r, r ∈ (HardDeleteRepliesAfterNDays loc db now days).1.replies ↔
          r ∈ db.replies ∧ deletedAtGt r.toModel (AddDate loc now (negInt days)) = false)
      ∧ (∀ r ∈ db.replies, r.DeletedAt = none →
          r ∈ (HardDeleteRepliesAfterNDays loc db now days).1.replies)
      ∧ (∃ sec, AddDate loc now (negInt days)
          = now + (-days) * 86400 + (loc.lookup now).offset - (loc.lookup sec).offset)
      ∧ (loc.Constant → AddDate loc now (negInt days) = now + (-days) * 86400)
      ∧ ((∀ sec1 sec2, (loc.lookup sec1).offset - (loc.lookup sec2).offset ≤ 86400) →
          now ≤ AddDate loc now (negInt days)
            ∧ ∀ r ∈ db.replies, ∀ t, r.DeletedAt = some t → t ≤ now →
                r ∈ (HardDeleteRepliesAfterNDays loc db now days).1.replies) := by
  have hk : negInt days = -days := negInt_of_range days (by omega) (by omega)
  obtain ⟨sec, hsec⟩ :=
    AddDate_of_range loc now (-days) hloc hnow.1 hnow.2 (by omega) (by omega)
  rw [← hk] at hsec
  refine ⟨rfl, ?_, ?_, ⟨sec, ?_⟩, ?_, ?_⟩
  · intro r
    exact mem_HardDeleteRepliesAfterNDays loc db now days r
  · intro r hr hlive
    exact (mem_HardDeleteRepliesAfterNDays loc db now days r).2
      ⟨hr, deletedAtGt_of_live r _ hlive⟩
  · rw [hsec, hk]
  · intro hconst
    rw [hsec, hk, hconst now sec]
    unfold Time
    omega
  · intro hdiff
    have hd := hdiff sec now
    have hle : now ≤ AddDate loc now (negInt days) := by
      rw [hsec, hk]
      unfold Time at *
      omega
    refine ⟨hle, ?_⟩
    intro r hr t ht htnow
    refine (mem_HardDeleteRepliesAfterNDays loc db now days r).2 ⟨hr, ?_⟩
    simp only [deletedAtGt, ht, decide_eq_false_iff_not, not_lt]
    exact le_trans htnow hle

/-- Claim C8 as amended, at `days = -1` on a UTC clock over `sweepReplies`. -/
theorem HardDeleteRepliesAfterNDays_negative_days_witness :
    ((-1 : Int) < 0 ∧ (-100000 : Int) ≤ -1 ∧ Location.UTC.Bounded)
      ∧ (HardDeleteRepliesAfterNDays Location.UTC (withReplies sweepReplies) 1700000000
          (-1)).2 = none
      ∧ AddDate Location.UTC 1700000000 (negInt (-1)) = 1700086400 :=
  ⟨⟨by decide, by decide, UTC_Bounded⟩,
    (HardDeleteRepliesAfterNDays_negative_days Location.UTC (withReplies sweepReplies)
      1700000000 (-1) (by decide) (by decide) (by decide) UTC_Bounded).1,
    (HardDeleteRepliesAfterNDays_negative_days Location.UTC (withReplies sweepReplies)
      1700000000 (-1) (by decide) (by decide) (by decide) UTC_Bounded).2.2.2.2.1
      UTC_Constant⟩

/-- Claim C9 refuted on a New York clock with `days = 60`: the first sweep runs on
12 May 2011 at 01:59:59 local time and its cutoff is 13 March 01:59:59 standard
time; the second runs one second later, 60 days after 13 March 02:00:00, an hour
the zone change skips, and its cutoff is 13 March 01:00:00 standard time, earlier
than the first.  The reply of `marchReplies` survives the first sweep and is
removed by the second. -/
theorem HardDeleteRepliesAfterNDays_twice_across_zone_change :
    (1305179999 : Int) ≤ 1305180000
      ∧ AddDate Location.newYork2011 1305179999 (negInt 60) = 1299999599
      ∧ AddDate Location.newYork2011 1305180000 (negInt 60) = 1299996000
      ∧ (HardDeleteRepliesAfterNDays Location.newYork2011 (withReplies marchReplies)
          1305179999 60).1.replies = marchReplies
      ∧ (HardDeleteRepliesAfterNDays Location.newYork2011
          (HardDeleteRepliesAfterNDays Location.newYork2011 (withReplies marchReplies)
            1305179999 60).1 1305180000 60).1.replies = [] := by
  decide

/-- Claim C9 as amended: for `0 ≤ days ≤ 100000`, clock readings between 1970 and
2106 and a location whose zones are at most a day from UTC, a second sweep with
the same `days` removes nothing (the database after it equals the database after
the first sweep, and it returns `nil`) whenever its cutoff
`now.AddDate(0, 0, -days)` is not earlier than the first sweep's; on a clock of
constant zone offset that is so whenever the second clock reading is not earlier
than the first. -/
theorem HardDeleteRepliesAfterNDays_twice (loc : Location) (db : DB) (now1 now2 : Time)
    (days : Int) (hdays : 0 ≤ days ∧ days ≤ 100000)
    (hnow1 : 0 ≤ now1 ∧ now1 ≤ 4294967296) (hnow2 : 0 ≤ now2 ∧ now2 ≤ 4294967296)
    (hloc : loc.Bounded) :
    (AddDate loc now1 (negInt days) ≤ AddDate loc now2 (negInt days) →
        HardDeleteRepliesAfterNDays loc (HardDeleteRepliesAfterNDays loc db now1 days).1
            now2 days
          = ((HardDeleteRepliesAfterNDays loc db now1 days).1, none))
      ∧ (loc.Constant → now1 ≤ now2 →
          AddDate loc now1 (negInt days) = now1 - days * 86400
            ∧ AddDate loc now2 (negInt days) = now2 - days * 86400
            ∧ HardDeleteRepliesAfterNDays loc
                (HardDeleteRepliesAfterNDays loc db now1 days).1 now2 days
              = ((HardDeleteRepliesAfterNDays loc db now1 days).1, none)) := by
  refine ⟨sweep_twice_of_cutoffs loc db now1 now2 days, ?_⟩
  intro hconst hclock
  have hk : negInt days = -days := negInt_of_range days (by omega) (by omega)
  obtain ⟨s1, h1⟩ :=
    AddDate_of_range loc now1 (-days) hloc hnow1.1 hnow1.2 (by omega) (by omega)
  obtain ⟨s2, h2⟩ :=
    AddDate_of_range loc now2 (-days) hloc hnow2.1 hnow2.2 (by omega) (by omega)
  rw [← hk] at h1 h2
  have e1 : AddDate loc now1 (negInt days) = now1 - days * 86400 := by
    rw [h1, hconst now1 s1]
    unfold Time
    omega
  have e2 : AddDate loc now2 (negInt days) = now2 - days * 86400 := by
    rw [h2, hconst now2 s2]
    unfold Time
    omega
  refine ⟨e1, e2, sweep_twice_of_cutoffs loc db now1 now2 days ?_⟩
  rw [e1, e2]
  unfold Time at *
  omega

/-- Claim C9 as amended, at a concrete table: two 60-day sweeps of `sweepReplies`
on a UTC clock, the second ten seconds after the first. -/
theorem HardDeleteRepliesAfterNDays_twice_witness :
    (Location.UTC.Bounded ∧ Location.UTC.Constant ∧ (1700000000 : Int) ≤ 1700000010)
      ∧ HardDeleteRepliesAfterNDays Location.UTC
          (HardDeleteRepliesAfterNDays Location.UTC (withReplies sweepReplies) 1700000000
            60).1 1700000010 60
        = ((HardDeleteRepliesAfterNDays Location.UTC (withReplies sweepReplies) 1700000000
            60).1, none) :=
  ⟨⟨UTC_Bounded, UTC_Constant, by decide⟩,
    ((HardDeleteRepliesAfterNDays_twice Location.UTC (withReplies sweepReplies) 1700000000
      1700000010 60 (by decide) (by decide) (by decide) UTC_Bounded).2
      UTC_Constant (by decide)).2.2⟩

end DeleteAfter60Days

/-! ## Theorems: the cascade of `Post.AfterDelete` -/

namespace DeleteAfter60Days

open Gorm

/-- Claim C2: deleting a stored Post `p` (key not zero, so that the statement
runs and calls `Post.AfterDelete`) returns `nil`, keeps the number and order of
the reply rows, and row by row: a live Reply with parent `("Post", p.ID)` gets
`deleted_at` set to the hook's clock reading and nothing else changed; a Reply
whose `ParentType` is not `"Post"` (so every Reply of a Reply), a Reply of
another parent key, and a Reply already soft-deleted stay exactly as they were. -/
theorem DeletePost_cascades_to_direct_replies (db : DB) (now hookNow : Time) (p : Post)
    (hp : p.ID ≠ 0) :
    (DeletePost db now hookNow p).2 = none
      ∧ (DeletePost db now hookNow p).1.replies.length = db.replies.length
      ∧ ∀ (i : Nat) (r : Reply), db.replies[i]? = some r →
          (r.ParentType = "Post" → r.ParentID = p.ID → r.DeletedAt = none →
              (DeletePost db now hookNow p).1.replies[i]?
                = some { r with DeletedAt := some hookNow })
          ∧ (r.ParentType ≠ "Post" → (DeletePost db now hookNow p).1.replies[i]? = some r)
          ∧ (r.ParentType = "Reply" → (DeletePost db now hookNow p).1.replies[i]? = some r)
          ∧ (r.ParentID ≠ p.ID → (DeletePost db now hookNow p).1.replies[i]? = some r)
          ∧ (r.DeletedAt ≠ none → (DeletePost db now hookNow p).1.replies[i]? = some r) := by
  have hrun : (DeletePost db now hookNow p).1.replies
      = softDeleteReplies (fun r => r.ParentType == "Post" && r.ParentID == p.ID) hookNow
          db.replies := by
    simp [DeletePost, softDeletePost, hp, Post.AfterDelete]
  refine ⟨by simp [DeletePost, softDeletePost, hp, Post.AfterDelete], ?_, ?_⟩
  · rw [hrun]; simp [softDeleteReplies]
  · intro i r hi
    rw [hrun]
    simp only [softDeleteReplies, List.getElem?_map, hi, Option.map_some']
    refine ⟨?_, ?_, ?_, ?_, ?_⟩
    · intro h1 h2 h3
      simp [h1, h2, h3, live]
    · intro h1
      simp [h1]
    · intro h1
      simp [h1]
    · intro h1
      simp [h1]
    · intro h1
      cases hd : r.DeletedAt with
      | none => exact absurd hd h1
      | some t => simp [live, hd]

/-- Claim C2 at a concrete table: deleting `samplePost` (key 1) over
`sampleReplies` soft-deletes reply 1 only; reply 2 (another post), reply 3 (a
reply of reply 1) and reply 4 (soft-deleted earlier) are as before. -/
theorem DeletePost_cascades_to_direct_replies_witness :
    samplePost.ID ≠ 0
      ∧ (DeletePost (withReplies sampleReplies) 1700001000 1700001001 samplePost).2 = none
      ∧ (DeletePost (withReplies sampleReplies) 1700001000 1700001001 samplePost).1.replies
        = [replyRow 1 "Post" 1 (some 1700001001), replyRow 2 "Post" 2 none,
           replyRow 3 "Reply" 1 none, replyRow 4 "Post" 1 (some 1700000500)] :=
  ⟨by decide,
    (DeletePost_cascades_to_direct_replies (withReplies sampleReplies) 1700001000 1700001001
      samplePost (by decide)).1,
    by decide⟩

end DeleteAfter60Days

/-! ## Theorems: the nesting check of `Reply.BeforeCreate` -/

namespace DeleteAfter60Days

open Gorm

/-- With a primary key on the table, `tx.First` returns the live row that has
the key. -/
theorem firstReply_of_mem (tx : DB) (r1 : Reply) (hkey : PrimaryKey tx.replies)
    (hmem : r1 ∈ tx.replies) (hlive : r1.DeletedAt = none) :
    firstReply tx r1.ID = .ok r1 := by
  have hfind : tx.replies.find? (fun r => r.ID == r1.ID && live r.toModel) = some r1 := by
    unfold PrimaryKey at hkey
    generalize tx.replies = rows at hkey hmem
    induction rows with
    | nil => cases hmem
    | cons x xs ih =>
      simp only [List.map_cons, List.nodup_cons, List.mem_map, not_exists, not_and] at hkey
      rcases List.mem_cons.1 hmem with h | h
      · subst h
        simp [List.find?_cons, live, hlive]
      · have hne : x.ID ≠ r1.ID := fun e => hkey.1 r1 h e.symm
        simp only [List.find?_cons]
        have : (x.ID == r1.ID && live x.toModel) = false := by simp [hne]
        rw [this]
        exact ih hkey.2 h
  simp [firstReply, hfind]

/-- When no live row has the key, `tx.First` reports `ErrRecordNotFound`. -/
theorem firstReply_of_no_live (tx : DB) (id : Nat)
    (h : ∀ p ∈ tx.replies, p.ID = id → p.DeletedAt ≠ none) :
    firstReply tx id = .error .ErrRecordNotFound := by
  have hfind : tx.replies.find? (fun r => r.ID == id && live r.toModel) = none := by
    rw [List.find?_eq_none]
    intro x hx
    cases hd : x.DeletedAt with
    | none =>
      have hne : x.ID ≠ id := fun e => h x hx e hd
      simp [hne]
    | some t => simp [live, hd]
  simp [firstReply, hfind]

/-- Claim C3: with a primary key on `replies`, for a live stored Reply `r1` and a
new Reply `r2` with `ParentType = "Reply"` and `ParentID = r1.ID`, the hook
`Reply.BeforeCreate` looks `r1` up and returns the error
`"Reply can't have a parent reply"` when `r1.ParentType` is `"Reply"`, and `nil`
when it is `"Post"` (or anything but `"Reply"`), in which case `db.Create`
goes on to the insert. -/
theorem BeforeCreate_nesting (tx : DB) (now : Time) (r1 r2 : Reply)
    (hkey : PrimaryKey tx.replies) (hmem : r1 ∈ tx.replies) (hlive : r1.DeletedAt = none)
    (htype : r2.ParentType = "Reply") (hparent : r2.ParentID = r1.ID) :
    (r1.ParentType = "Reply" →
        Reply.BeforeCreate r2 tx
            = (some (.Errorf "Reply can't have a parent reply"), [r1.ID])
          ∧ CreateReply tx now r2
            = (tx, r2, some (.Errorf "Reply can't have a parent reply")))
      ∧ (r1.ParentType = "Post" →
          Reply.BeforeCreate r2 tx = (none, [r1.ID])
            ∧ CreateReply tx now r2 = insertReply tx now r2)
      ∧ (r1.ParentType ≠ "Reply" → Reply.BeforeCreate r2 tx = (none, [r1.ID])) := by
  have hfirst := firstReply_of_mem tx r1 hkey hmem hlive
  have hno : r1.ParentType ≠ "Reply" → Reply.BeforeCreate r2 tx = (none, [r1.ID]) := by
    intro h
    simp [Reply.BeforeCreate, htype, hparent, hfirst, h]
  refine ⟨?_, ?_, hno⟩
  · intro h
    have hb : Reply.BeforeCreate r2 tx
        = (some (.Errorf "Reply can't have a parent reply"), [r1.ID]) := by
      simp [Reply.BeforeCreate, htype, hparent, hfirst, h]
    exact ⟨hb, by simp [CreateReply, hb]⟩
  · intro h
    have hb := hno (by rw [h]; decide)
    exact ⟨hb, by simp [CreateReply, hb]⟩

/-- Claim C3 at a concrete table: over `sampleReplies`, a new reply to reply 3
(itself a reply of reply 1) is refused. -/
theorem BeforeCreate_nesting_witness :
    (PrimaryKey (withReplies sampleReplies).replies
        ∧ replyRow 3 "Reply" 1 none ∈ (withReplies sampleReplies).replies)
      ∧ Reply.BeforeCreate (newReply "Reply" 3) (withReplies sampleReplies)
        = (some (.Errorf "Reply can't have a parent reply"), [3]) :=
  ⟨by decide,
    ((BeforeCreate_nesting (withReplies sampleReplies) 1700002000 (replyRow 3 "Reply" 1 none)
      (newReply "Reply" 3) (by decide) (by decide) rfl rfl rfl).1 rfl).1⟩

/-- Claim C7: for a new Reply with `ParentType = "Reply"` whose `ParentID` is the
key of no live Reply (in particular of no Reply at all), the hook returns the
lookup's error `ErrRecordNotFound`, and `db.Create` returns that error with the
database exactly as it was: nothing is inserted. -/
theorem BeforeCreate_parent_not_found (db : DB) (now : Time) (r : Reply)
    (htype : r.ParentType = "Reply")
    (hnone : ∀ p ∈ db.replies, p.ID = r.ParentID → p.DeletedAt ≠ none) :
    Reply.BeforeCreate r db = (some .ErrRecordNotFound, [r.ParentID])
      ∧ CreateReply db now r = (db, r, some .ErrRecordNotFound) := by
  have hfirst := firstReply_of_no_live db r.ParentID hnone
  have hb : Reply.BeforeCreate r db = (some .ErrRecordNotFound, [r.ParentID]) := by
    simp [Reply.BeforeCreate, htype, hfirst]
  exact ⟨hb, by simp [CreateReply, hb]⟩

/-- Claim C7 at a concrete table: over `sampleReplies`, whose keys are 1 to 4, a
new reply to reply 9 is refused with `ErrRecordNotFound` and the database is
unchanged. -/
theorem BeforeCreate_parent_not_found_witness :
    (∀ p ∈ (withReplies sampleReplies).replies, p.ID ≠ 9)
      ∧ CreateReply (withReplies sampleReplies) 1700002000 (newReply "Reply" 9)
        = (withReplies sampleReplies, newReply "Reply" 9, some .ErrRecordNotFound) :=
  ⟨by decide,
    (BeforeCreate_parent_not_found (withReplies sampleReplies) 1700002000 (newReply "Reply" 9)
      rfl (by decide)).2⟩

/-- Claim C10: for a new Reply whose `ParentType` is not `"Reply"`, the hook
returns `nil` and performs no lookup, whatever the database and `ParentID`, so
`db.Create` goes straight to the insert; with `ParentType = "Reply"` the hook
performs exactly one lookup, of `ParentID`. -/
theorem BeforeCreate_other_parent_type (r : Reply) (tx : DB) (now : Time) :
    (r.ParentType ≠ "Reply" →
        Reply.BeforeCreate r tx = (none, []) ∧ CreateReply tx now r = insertReply tx now r)
      ∧ (r.ParentType = "Reply" → (Reply.BeforeCreate r tx).2 = [r.ParentID]) := by
  constructor
  · intro h
    have hb : Reply.BeforeCreate r tx = (none, []) := by simp [Reply.BeforeCreate, h]
    exact ⟨hb, by simp [CreateReply, hb]⟩
  · intro h
    simp only [Reply.BeforeCreate, h, if_true]
    cases firstReply tx r.ParentID with
    | error e => rfl
    | ok parentReply => by_cases hp : parentReply.ParentType = "Reply" <;> simp [hp]

/-- Claim C10 at concrete inputs: over `sampleReplies`, new replies with
`ParentType` `"Post"`, empty, and `"Comment"`, each naming the missing parent key
9, pass the hook without a lookup. -/
theorem BeforeCreate_other_parent_type_witness :
    Reply.BeforeCreate (newReply "Post" 9) (withReplies sampleReplies) = (none, [])
      ∧ Reply.BeforeCreate (newReply "" 9) (withReplies sampleReplies) = (none, [])
      ∧ Reply.BeforeCreate (newReply "Comment" 9) (withReplies sampleReplies) = (none, []) :=
  ⟨((BeforeCreate_other_parent_type (newReply "Post" 9) (withReplies sampleReplies)
      1700002000).1 (by decide)).1,
    ((BeforeCreate_other_parent_type (newReply "" 9) (withReplies sampleReplies)
      1700002000).1 (by decide)).1,
    ((BeforeCreate_other_parent_type (newReply "Comment" 9) (withReplies sampleReplies)
      1700002000).1 (by decide)).1⟩

end DeleteAfter60Days

/-! ## Theorems: the nesting invariant over successful creations -/

namespace DeleteAfter60Days

open Gorm

/-- Two rows of a keyed table with the same key are the same row. -/
theorem PrimaryKey_unique (rows : List Reply) (hkey : PrimaryKey rows) (p q : Reply)
    (hp : p ∈ rows) (hq : q ∈ rows) (h : p.ID = q.ID) : p = q :=
  List.inj_on_of_nodup_map hkey hp hq h

/-- Creating a user leaves the replies alone. -/
theorem insertUser_replies (db : DB) (now : Time) (u : User) :
    (insertUser db now u).1.replies = db.replies := by
  unfold insertUser
  simp only []
  split_ifs <;> rfl

/-- Creating a post leaves the replies alone. -/
theorem insertPost_replies (db : DB) (now : Time) (p : Post) :
    (insertPost db now p).1.replies = db.replies := by
  unfold insertPost
  simp only []
  split_ifs <;> rfl

/-- A passing hook on a Reply of a Reply has found a stored parent that is not
itself a Reply of a Reply. -/
theorem BeforeCreate_passes (db : DB) (r : Reply) (hpass : (Reply.BeforeCreate r db).1 = none)
    (htype : r.ParentType = "Reply") :
    ∃ p ∈ db.replies, p.ID = r.ParentID ∧ p.ParentType ≠ "Reply" := by
  unfold Reply.BeforeCreate firstReply at hpass
  rw [if_pos htype] at hpass
  cases hf : db.replies.find? (fun x => x.ID == r.ParentID && live x.toModel) with
  | none => simp [hf] at hpass
  | some p =>
    have hmem := List.mem_of_find?_eq_some hf
    have hprop := List.find?_some hf
    simp only [Bool.and_eq_true, beq_iff_eq] at hprop
    refine ⟨p, hmem, hprop.1, ?_⟩
    intro hp
    simp [hf, hp] at hpass

/-- A successful insert appends one row with a fresh key and the parent
reference of the struct it was given. -/
theorem insertReply_ok (db : DB) (now : Time) (r : Reply)
    (hok : (insertReply db now r).2.2 = none) :
    ∃ row : Reply, (insertReply db now r).1.replies = db.replies ++ [row]
      ∧ (∀ x ∈ db.replies, x.ID ≠ row.ID)
      ∧ row.ParentType = r.ParentType ∧ row.ParentID = r.ParentID := by
  unfold insertReply at hok ⊢
  simp only [] at hok ⊢
  generalize (if r.ID = 0 then db.repliesSeq + 1 else r.ID) = id at hok ⊢
  generalize (if r.ID = 0 then db.repliesSeq + 1 else db.repliesSeq) = seq at hok ⊢
  by_cases hdup : (db.replies.any fun x => x.ID == id) = true
  · rw [if_pos hdup] at hok
    cases hok
  · rw [if_neg hdup]
    simp only [List.any_eq_true, beq_iff_eq, not_exists, not_and] at hdup
    exact ⟨_, rfl, fun x hx => hdup x hx, rfl, rfl⟩

/-- A successful `db.Create(reply)` keeps the nesting rule. -/
theorem CreateReply_keeps_NoReplyChain (db : DB) (now : Time) (r : Reply)
    (hinv : NoReplyChain db) (hok : (CreateReply db now r).2.2 = none) :
    NoReplyChain (CreateReply db now r).1 := by
  unfold CreateReply at hok ⊢
  cases hb : (Reply.BeforeCreate r db).1 with
  | some err => simp [hb] at hok
  | none =>
    simp only [hb] at hok ⊢
    obtain ⟨row, hrows, hfresh, hrt, hrp⟩ := insertReply_ok db now r hok
    unfold NoReplyChain
    rw [hrows]
    refine ⟨?_, ?_⟩
    · unfold PrimaryKey
      simp only [List.map_append, List.map_cons, List.map_nil]
      rw [List.nodup_append]
      refine ⟨hinv.1, List.nodup_singleton _, ?_⟩
      intro a ha hb2
      simp only [List.mem_singleton] at hb2
      obtain ⟨x, hx, hxa⟩ := List.mem_map.1 ha
      exact hfresh x hx (hxa.trans hb2)
    · intro x hx hxt
      rcases List.mem_append.1 hx with hx | hx
      · obtain ⟨p, hp, hpid, hpt⟩ := hinv.2 x hx hxt
        exact ⟨p, List.mem_append_left _ hp, hpid, hpt⟩
      · simp only [List.mem_singleton] at hx
        subst hx
        obtain ⟨p, hp, hpid, hpt⟩ := BeforeCreate_passes db r hb (hrt ▸ hxt)
        exact ⟨p, List.mem_append_left _ hp, hpid.trans hrp.symm, hpt⟩

/-- Every sequence of successful creations keeps the nesting rule. -/
theorem exec_keeps_NoReplyChain (ops : List Op) :
    ∀ (db db1 : DB), NoReplyChain db → exec db ops = some db1 → NoReplyChain db1 := by
  induction ops with
  | nil =>
    intro db db1 hinv h
    simp only [exec, Option.some.injEq] at h
    exact h ▸ hinv
  | cons op rest ih =>
    intro db db1 hinv h
    cases op with
    | createUser now u =>
      simp only [exec] at h
      have hrep := insertUser_replies db now u
      split at h
      · rename_i db2 _ heq
        refine ih db2 db1 ?_ h
        have : db2.replies = db.replies := by rw [← hrep, heq]
        unfold NoReplyChain
        rw [this]
        exact hinv
      · cases h
    | createPost now p =>
      simp only [exec] at h
      have hrep := insertPost_replies db now p
      split at h
      · rename_i db2 _ heq
        refine ih db2 db1 ?_ h
        have : db2.replies = db.replies := by rw [← hrep, heq]
        unfold NoReplyChain
        rw [this]
        exact hinv
      · cases h
    | createReply now r =>
      simp only [exec] at h
      have hstep := CreateReply_keeps_NoReplyChain db now r hinv
      split at h
      · rename_i db2 _ heq
        rw [heq] at hstep
        exact ih db2 db1 (hstep rfl) h
      · cases h

/-- Claim C6 refuted: the four creations of `untypedParentScript` all succeed
and leave reply 2, with `ParentType = "Reply"`, under reply 1, whose `ParentType`
is empty and not `"Post"`; so the rule "the parent Reply has `ParentType`
`"Post"`" does not hold in every database built by successful creations. -/
theorem untypedParent_is_not_Post :
    exec DB.empty untypedParentScript = some untypedParentState
      ∧ (untypedParentState.replies.map fun r => (r.ID, r.ParentType, r.ParentID))
        = [(1, "", 1), (2, "Reply", 1)]
      ∧ ¬ (∀ (ops : List Op) (db : DB), exec DB.empty ops = some db →
            ∀ r ∈ db.replies, r.ParentType = "Reply" →
              ∃ p ∈ db.replies, p.ID = r.ParentID ∧ p.ParentType = "Post") := by
  have hrun : exec DB.empty untypedParentScript = some untypedParentState := by decide
  refine ⟨hrun, by decide, ?_⟩
  intro hall
  have hbad : ¬ ∃ p ∈ untypedParentState.replies,
      p.ID = 1 ∧ p.ParentType = "Post" := by decide
  exact hbad (hall untypedParentScript untypedParentState hrun
    { ID := 2, CreatedAt := 1700000003, UpdatedAt := 1700000003, DeletedAt := none,
      Content := "Reply", UserID := 1, ParentID := 1, ParentType := "Reply" }
    (by decide) rfl)

/-- Claim C6 as amended: in every database built from the empty one by successful
creations, `replies` has a primary key and every Reply with
`ParentType = "Reply"` has a stored parent Reply, and the Reply with that key has
a `ParentType` other than `"Reply"`; so no chain reply1 -> reply2 -> reply3 of
Replies parented to Replies exists.  The parent's `ParentType` is `"Post"` when
every stored Reply has `ParentType` `"Post"` or `"Reply"`. -/
theorem exec_no_reply_chain (ops : List Op) (db : DB) (hrun : exec DB.empty ops = some db) :
    PrimaryKey db.replies
      ∧ (∀ r ∈ db.replies, r.ParentType = "Reply" →
          (∃ p ∈ db.replies, p.ID = r.ParentID ∧ p.ParentType ≠ "Reply")
          ∧ (∀ p ∈ db.replies, p.ID = r.ParentID → p.ParentType ≠ "Reply")
          ∧ ((∀ q ∈ db.replies, q.ParentType = "Post" ∨ q.ParentType = "Reply") →
              ∃ p ∈ db.replies, p.ID = r.ParentID ∧ p.ParentType = "Post"))
      ∧ ¬ (∃ r2 ∈ db.replies, ∃ r3 ∈ db.replies,
            r3.ParentType = "Reply" ∧ r3.ParentID = r2.ID ∧ r2.ParentType = "Reply") := by
  have hempty : NoReplyChain DB.empty := by
    refine ⟨by decide, ?_⟩
    intro r hr
    simp [DB.empty] at hr
  have hinv := exec_keeps_NoReplyChain ops DB.empty db hempty hrun
  have hall : ∀ r ∈ db.replies, r.ParentType = "Reply" →
      ∀ q ∈ db.replies, q.ID = r.ParentID → q.ParentType ≠ "Reply" := by
    intro r hr hrt q hq hqid
    obtain ⟨p, hp, hpid, hpt⟩ := hinv.2 r hr hrt
    have : q = p := PrimaryKey_unique db.replies hinv.1 q p hq hp (hqid.trans hpid.symm)
    rw [this]
    exact hpt
  refine ⟨hinv.1, ?_, ?_⟩
  · intro r hr hrt
    obtain ⟨p, hp, hpid, hpt⟩ := hinv.2 r hr hrt
    refine ⟨⟨p, hp, hpid, hpt⟩, hall r hr hrt, ?_⟩
    intro htyped
    rcases htyped p hp with h | h
    · exact ⟨p, hp, hpid, h⟩
    · exact absurd h hpt
  · rintro ⟨r2, hr2, r3, hr3, h3t, h3p, h2t⟩
    exact hall r3 hr3 h3t r2 hr2 h3p.symm h2t

/-- Claim C6 as amended, at `nestedScript`: its four creations succeed and build
`nestedState`, where reply 2 is a reply of reply 1 and reply 1 a reply of the
post. -/
theorem exec_no_reply_chain_witness :
    exec DB.empty nestedScript = some nestedState
      ∧ PrimaryKey nestedState.replies
      ∧ ¬ (∃ r2 ∈ nestedState.replies, ∃ r3 ∈ nestedState.replies,
            r3.ParentType = "Reply" ∧ r3.ParentID = r2.ID ∧ r2.ParentType = "Reply") :=
  ⟨by decide,
    (exec_no_reply_chain nestedScript nestedState (by decide)).1,
    (exec_no_reply_chain nestedScript nestedState (by decide)).2.2⟩

end DeleteAfter60Days

/-! ## Theorems: program `cmds/poly_delete` -/

namespace PolyDelete

open Gorm

/-- Claim C4, the code at the scenario of `main`: for every clock, `main` runs
without a panic and the count of live Replies it prints after `db.Delete(post)`
is 1, not 0: the post is soft-deleted and "Reply 1" stays live, because no
`AfterDelete` hook is declared.  With the hook of the sibling program
`delete_after_60_days` the same deletion leaves a count of 0. -/
theorem main_prints_one (clock : Nat → Time) :
    (main clock).map (fun out => out.2) = some 1
      ∧ (main clock).map (fun out => out.1.replies.map fun r => (r.ID, r.Content, r.DeletedAt))
        = some [(1, "Reply 1", none)]
      ∧ (main clock).map (fun out => out.1.posts.map fun p => (p.ID, p.DeletedAt))
        = some [(1, some (clock 3))]
      ∧ (mainBeforeDelete clock).map (fun st =>
            countReplies (DeleteAfter60Days.DeletePost st.1 (clock 3) (clock 4) st.2).1)
        = some 0 := by
  refine ⟨?_, ?_, ?_, ?_⟩ <;> rfl

end PolyDelete
